import Mathlib

/-!
Verification of the `run` package (basvanbeek/run): an actor-runner with
deterministic teardown.  We shallowly embed the `Group` orchestrator from
`group.go`: the capability registry (`Register` / `Deregister`), the Config
phase (`RunConfig`), and the full `Run` pipeline (Initializer, PreRun, Serve
phases plus the deferred outcome mapping).

Modelling conventions:
* Go interface values are modelled by `Unit'`: a record with an identity
  (`uid`, standing for Go interface identity), a name, one Boolean per
  optional capability interface, and the deterministic results of the
  fallible callbacks (`validate`, `preRun`).
* Go errors are the inductive `Err`: plain errors / sentinel `Error` strings
  (`Err.mk`), `fmt.Errorf("...: %w", e)` wrapping (`Err.wrapped`), and the
  external multierror aggregate (`Err.agg`, ordered).
* Side effects of callbacks are recorded in an event trace (`Event`), so
  "callback X was (not) invoked" becomes a statement about the trace.
* The Serve phase's concurrency is modelled by an explicit arrival schedule:
  the list of values read from the result channel in arrival order.
-/

/-- Go error values, as far as this package observes them:
`Err.mk s` is a plain error or a constant of the `Error` string type,
`Err.wrapped msg e` is `fmt.Errorf(msg + ": %w", e)`,
`Err.agg l` is the (external) multierror aggregate holding `l` in order. -/
inductive Err where
  | mk : String → Err
  | wrapped : String → Err → Err
  | agg : List Err → Err
deriving Repr

mutual

/-- Structural equality on errors (Go `==` on comparable error values). -/
def errBeq : Err → Err → Bool
  | .mk a, .mk b => a == b
  | .wrapped a e, .wrapped b f => a == b && errBeq e f
  | .agg l, .agg m => errListBeq l m
  | _, _ => false

def errListBeq : List Err → List Err → Bool
  | [], [] => true
  | a :: as, b :: bs => errBeq a b && errListBeq as bs
  | _, _ => false

end

mutual

/-- `errors.Is(e, target)`: equality at each level of the unwrap chain;
the multierror aggregate unwraps to each of its members in turn. -/
def errIs : Err → Err → Bool
  | .mk s, t => errBeq (.mk s) t
  | .wrapped m e, t => errBeq (.wrapped m e) t || errIs e t
  | .agg l, t => errBeq (.agg l) t || errIsList l t

def errIsList : List Err → Err → Bool
  | [], _ => false
  | e :: es, t => errIs e t || errIsList es t

end

/-- `ErrBailEarlyRequest`: returned on served help/version/list requests. -/
def ErrBailEarlyRequest : Err := .mk "exit request from flag handler"

/-- `ErrRequestedShutdown`: graceful shutdown request sentinel. -/
def ErrRequestedShutdown : Err := .mk "shutdown requested"

/-- A registrable unit: Go interface identity (`uid`), its `Name()`, which of
the optional capability interfaces it implements, and the deterministic
results of its fallible callbacks (`none` = nil error). -/
structure Unit' where
  uid : Nat
  name : String
  isInitializer : Bool := false
  isNamer : Bool := false
  isConfig : Bool := false
  isPreRunner : Bool := false
  isService : Bool := false
  isServiceContext : Bool := false
  validate : Option Err := none
  preRun : Option Err := none
deriving Repr

/-- Observable callback invocations and config-phase actions, by unit id. -/
inductive Event where
  | init : Nat → Event
  | groupName : Nat → Event
  | flagSet : Nat → Event
  | validate : Nat → Event
  | preRun : Nat → Event
  | serve : Nat → Event
  | serveCtx : Nat → Event
  | gracefulStop : Nat → Event
  | helpShown : Event
  | versionShown : Event
  | unitsListed : Event
deriving Repr, DecidableEq

/-- The unit id an event concerns, if any. -/
def Event.uid? : Event → Option Nat
  | .init k => some k
  | .groupName k => some k
  | .flagSet k => some k
  | .validate k => some k
  | .preRun k => some k
  | .serve k => some k
  | .serveCtx k => some k
  | .gracefulStop k => some k
  | .helpShown => none
  | .versionShown => none
  | .unitsListed => none

/-- The `Group` state: Name, the six phase-slot lists (a `none` slot is a
deregistered tombstone, mirroring the nil-ed slice entries), and the
`configured` latch. -/
structure Group' where
  name : String := ""
  i : List (Option Unit') := []
  n : List (Option Unit') := []
  c : List (Option Unit') := []
  p : List (Option Unit') := []
  s : List (Option Unit') := []
  x : List (Option Unit') := []
  configured : Bool := false
deriving Repr

/-- The non-nil occupants of a slot list, in order. -/
def liveUnits (l : List (Option Unit')) : List Unit' := l.filterMap id

/-- `Register` on a single unit, following the statement order of the Go
loop body: Initializer append; Namer and Config appends only when the
`configured` latch is unset; PreRunner append; then the ambiguous-service
check which panics before any Service / ServiceContext append; otherwise
those two appends.  Returns the updated group, the unit's `hasRegistered`
flag, and whether the panic fired. -/
def registerUnit (g : Group') (u : Unit') : Group' × Bool × Bool :=
  let i' := if u.isInitializer then g.i ++ [some u] else g.i
  let n' := if !g.configured && u.isNamer then g.n ++ [some u] else g.n
  let c' := if !g.configured && u.isConfig then g.c ++ [some u] else g.c
  let p' := if u.isPreRunner then g.p ++ [some u] else g.p
  let r4 : Bool := u.isInitializer || (!g.configured && u.isNamer) ||
    (!g.configured && u.isConfig) || u.isPreRunner
  let g1 : Group' := { g with i := i', n := n', c := c', p := p' }
  if u.isService && u.isServiceContext then
    (g1, r4, true)
  else
    let s' := if u.isService then g.s ++ [some u] else g.s
    let x' := if u.isServiceContext then g.x ++ [some u] else g.x
    ({ g1 with s := s', x := x' },
     r4 || u.isService || u.isServiceContext, false)

/-- `Group'.Register`: processes units left to right; a panic aborts the
loop (the flags gathered so far and the mutated group survive, since the
receiver is a pointer).  Returns (group, per-unit flags, panicked). -/
def Group'.register (g : Group') : List Unit' → Group' × List Bool × Bool
  | [] => (g, [], false)
  | u :: us =>
    let one := registerUnit g u
    if one.2.2 then (one.1, [one.2.1], true)
    else
      let rest := one.1.register us
      (rest.1, one.2.1 :: rest.2.1, rest.2.2)

/-- One `Deregister` inner loop: clear (tombstone) every slot whose occupant
is identity-equal to the unit; report whether any slot was cleared.  The
list length never changes. -/
def clearList (l : List (Option Unit')) (k : Nat) : List (Option Unit') :=
  l.map fun st =>
    match st with
    | some v => if v.uid == k then none else some v
    | none => none

/-- Whether the `Deregister` inner loop over one list finds (and hence
clears) at least one matching slot. -/
def hasLiveUid (l : List (Option Unit')) (k : Nat) : Bool :=
  l.any fun st =>
    match st with
    | some v => v.uid == k
    | none => false

/-- `Deregister` on a single unit: clear matching slots in all six lists;
report whether any slot anywhere was cleared. -/
def deregisterUnit (g : Group') (u : Unit') : Group' × Bool :=
  ({ g with
      i := clearList g.i u.uid, n := clearList g.n u.uid,
      c := clearList g.c u.uid, p := clearList g.p u.uid,
      s := clearList g.s u.uid, x := clearList g.x u.uid },
   hasLiveUid g.i u.uid || hasLiveUid g.n u.uid || hasLiveUid g.c u.uid ||
     hasLiveUid g.p u.uid || hasLiveUid g.s u.uid || hasLiveUid g.x u.uid)

/-- `Group'.Deregister` over a unit list. -/
def Group'.deregister (g : Group') : List Unit' → Group' × List Bool
  | [] => (g, [])
  | u :: us =>
    let one := deregisterUnit g u
    let rest := one.1.deregister us
    (rest.1, one.2 :: rest.2)

/-- The parsed command line, abstracting the pflag collaborator: the values
of the reserved flags after parsing, and the result of `g.f.Parse(args)`
(`some e` = parse failure, e.g. an unknown flag). -/
structure Args where
  nameFlag : Option String := none
  showHelp : Bool := false
  showVersion : Bool := false
  showRunGroup : Bool := false
  parseError : Option Err := none

/-- Stand-in for `path.Base(os.Args[0])`. -/
def binaryName : String := "a.out"

/-- The `RunConfig` Initializer loop: invoke each non-nil slot and nil it
immediately afterwards (`g.i[idx] = nil`), so Run does not call it again. -/
def initPass : List (Option Unit') → List (Option Unit') × List Event
  | [] => ([], [])
  | none :: rest =>
    let (r, ev) := initPass rest
    (none :: r, ev)
  | some u :: rest =>
    let (r, ev) := initPass rest
    (none :: r, Event.init u.uid :: ev)

/-- The Validate loop: every still-registered Config unit is validated in
registration order, errors accumulated in order (multierror.Append). -/
def validatePass : List (Option Unit') → List Event × List Err
  | [] => ([], [])
  | none :: rest => validatePass rest
  | some u :: rest =>
    let (ev, es) := validatePass rest
    (Event.validate u.uid :: ev,
     match u.validate with
     | some e => e :: es
     | none => es)

/-- The PreRun loop: serial, registration order, nil slots skipped, first
error wrapped with the unit name (`fmt.Errorf("pre-run %s: %w", ...)`) and
returned immediately, skipping the rest. -/
def preRunPass : List (Option Unit') → List Event × Option Err
  | [] => ([], none)
  | none :: rest => preRunPass rest
  | some u :: rest =>
    match u.preRun with
    | some e => ([Event.preRun u.uid], some (Err.wrapped ("pre-run " ++ u.name) e))
    | none =>
      let (ev, r) := preRunPass rest
      (Event.preRun u.uid :: ev, r)

/-- `Group'.RunConfig`: sets the `configured` latch first thing; resolves the
group name (explicit name, else binary name, possibly overridden by the
parsed `-n` flag); runs the Initializer pass (clearing slots); informs
Namers; collects Config flag sets; returns the flag-parse error if any;
serves help / version / show-rungroup-units in that priority order,
returning `ErrBailEarlyRequest`; otherwise validates every live Config
unit and returns the ordered aggregate of the validation errors, or `none`.
(The deferred `multierror.SetFormatter` only changes formatting, not the
error value, and is not modelled.) -/
def Group'.runConfig (g : Group') (a : Args) : Group' × Option Err × List Event :=
  let g := { g with configured := true }
  let nm := if g.name == "" then binaryName else g.name
  let pn := a.nameFlag.getD nm
  let g := { g with name := if pn == "" then nm else pn }
  let ip := initPass g.i
  let g := { g with i := ip.1 }
  let evN := (liveUnits g.n).map fun u => Event.groupName u.uid
  let evF := (liveUnits g.c).map fun u => Event.flagSet u.uid
  let ev := ip.2 ++ evN ++ evF
  match a.parseError with
  | some e => (g, some e, ev)
  | none =>
    if a.showHelp then (g, some ErrBailEarlyRequest, ev ++ [Event.helpShown])
    else if a.showVersion then (g, some ErrBailEarlyRequest, ev ++ [Event.versionShown])
    else if a.showRunGroup then (g, some ErrBailEarlyRequest, ev ++ [Event.unitsListed])
    else
      let vp := validatePass g.c
      let err : Option Err :=
        match vp.2 with
        | [] => none
        | _ => some (Err.agg vp.2)
      (g, err, ev ++ vp.1)

/-- The deferred outcome mapping in `Run` (active once the receiver passed
the config stage): a nil error with launched services becomes the fatal
"terminated without explicit error condition"; an error that is or wraps
`ErrRequestedShutdown` is cleared to nil; anything else passes through
(SetFormatter only changes formatting). -/
def deferMap (hasServices : Bool) : Option Err → Option Err
  | none =>
    if hasServices then some (.mk "run terminated without explicit error condition")
    else none
  | some e => if errIs e ErrRequestedShutdown then none else some e

/-- The post-config phases of `Run`: the second Initializer pass (which does
NOT clear slots), the PreRun pass, then the Serve phase.  Live Service and
ServiceContext units are gathered; with none, Run returns through the
deferred mapping with `hasServices = false`.  Otherwise every live unit is
launched, the first value received from the result channel (the head of the
`arrivals` schedule) becomes the originating error, every live Service gets
a GracefulStop call, the remaining arrivals are drained, and the
originating error is returned through the deferred mapping. -/
def runPhases (g : Group') (ev0 : List Event) (arrivals : List (Option Err)) :
    Group' × Option Err × List Event :=
  let evI := (liveUnits g.i).map fun u => Event.init u.uid
  let pp := preRunPass g.p
  match pp.2 with
  | some e => (g, deferMap false (some e), ev0 ++ evI ++ pp.1)
  | none =>
    let s := liveUnits g.s
    let x := liveUnits g.x
    if s.length + x.length == 0 then (g, deferMap false none, ev0 ++ evI ++ pp.1)
    else
      let evS := (s.map fun u => Event.serve u.uid) ++ x.map fun u => Event.serveCtx u.uid
      let first := arrivals.headD none
      let evG := s.map fun u => Event.gracefulStop u.uid
      (g, deferMap true first, ev0 ++ evI ++ pp.1 ++ evS ++ evG)

/-- `Group'.Run`: when the `configured` latch is unset, run `RunConfig` first
(its `ErrBailEarlyRequest` maps to a nil return, any other error is
returned as-is, both without reaching the deferred mapping); then the
remaining phases. -/
def Group'.run (g : Group') (a : Args) (arrivals : List (Option Err)) :
    Group' × Option Err × List Event :=
  if g.configured then runPhases g [] arrivals
  else
    let cfg := g.runConfig a
    match cfg.2.1 with
    | some e => (cfg.1, if errBeq e ErrBailEarlyRequest then none else some e, cfg.2.2)
    | none => runPhases cfg.1 cfg.2.2 arrivals

/-! ### Characterization lemmas for the phase loops -/

/-- A unit implementing both blocking-service interfaces. -/
def dualService (u : Unit') : Bool := u.isService && u.isServiceContext

/-- No unit in the list triggers the ambiguous-service panic. -/
def noDual (us : List Unit') : Bool := us.all fun u => !dualService u

/-- Every live PreRunner returns a nil error. -/
def preRunsOk (l : List (Option Unit')) : Bool :=
  (liveUnits l).all fun u => u.preRun.isNone

theorem liveUnits_nil : liveUnits [] = [] := rfl

theorem liveUnits_cons_none (l : List (Option Unit')) :
    liveUnits (none :: l) = liveUnits l := by
  simp [liveUnits]

theorem liveUnits_cons_some (u : Unit') (l : List (Option Unit')) :
    liveUnits (some u :: l) = u :: liveUnits l := by
  simp [liveUnits]

theorem initPass_eq (l : List (Option Unit')) :
    initPass l = (l.map fun _ => none, (liveUnits l).map fun u => Event.init u.uid) := by
  induction l with
  | nil => rfl
  | cons st rest ih =>
    cases st <;> simp [initPass, ih, liveUnits]

theorem validatePass_eq (l : List (Option Unit')) :
    validatePass l = ((liveUnits l).map fun u => Event.validate u.uid,
      (liveUnits l).filterMap fun u => u.validate) := by
  induction l with
  | nil => rfl
  | cons st rest ih =>
    cases st with
    | none => simp [validatePass, ih, liveUnits]
    | some u =>
      cases h : u.validate <;>
        simp [validatePass, ih, liveUnits, h, List.filterMap_cons]

theorem preRunPass_of_ok (l : List (Option Unit')) (h : preRunsOk l = true) :
    preRunPass l = ((liveUnits l).map fun u => Event.preRun u.uid, none) := by
  induction l with
  | nil => rfl
  | cons st rest ih =>
    cases st with
    | none =>
      have h' : preRunsOk rest = true := by
        simpa [preRunsOk, liveUnits_cons_none] using h
      simp [preRunPass, ih h', liveUnits_cons_none]
    | some u =>
      have h2 : u.preRun.isNone = true ∧ preRunsOk rest = true := by
        simpa [preRunsOk, liveUnits_cons_some, List.all_cons] using h
      have hu : u.preRun = none := by
        cases hp : u.preRun with
        | none => rfl
        | some e => rw [hp] at h2; simp at h2
      simp [preRunPass, hu, ih h2.2, liveUnits_cons_some]

theorem clearList_length (l : List (Option Unit')) (k : Nat) :
    (clearList l k).length = l.length := by
  simp [clearList]

theorem liveUnits_clearList (l : List (Option Unit')) (k : Nat) :
    liveUnits (clearList l k) = (liveUnits l).filter fun v => !(v.uid == k) := by
  induction l with
  | nil => rfl
  | cons st rest ih =>
    cases st with
    | none => simp [clearList, liveUnits_cons_none] at *; exact ih
    | some v =>
      by_cases h : v.uid = k
      · simp [clearList, liveUnits_cons_none, liveUnits_cons_some, h] at *
        exact ih
      · simp [clearList, List.map_cons, h, liveUnits_cons_some, List.filter_cons] at *
        exact ih

theorem registerUnit_configured (g : Group') (u : Unit') :
    ((registerUnit g u).1).configured = g.configured := by
  unfold registerUnit
  dsimp only
  split <;> rfl

theorem registerUnit_panicked (g : Group') (u : Unit') :
    (registerUnit g u).2.2 = dualService u := by
  by_cases h : (u.isService && u.isServiceContext) = true <;>
    simp [registerUnit, dualService, h]

theorem register_configured (g : Group') (us : List Unit') :
    ((Group'.register g us).1).configured = g.configured := by
  induction us generalizing g with
  | nil => rfl
  | cons u us ih =>
    simp only [Group'.register]
    by_cases h : (registerUnit g u).2.2 = true
    · simp [h, registerUnit_configured]
    · simp only [Bool.not_eq_true] at h
      simp [h, ih, registerUnit_configured]

theorem register_append (g : Group') (pre rest : List Unit')
    (h : noDual pre = true) :
    Group'.register g (pre ++ rest) =
      (((Group'.register g pre).1.register rest).1,
       (Group'.register g pre).2.1 ++ ((Group'.register g pre).1.register rest).2.1,
       ((Group'.register g pre).1.register rest).2.2) := by
  induction pre generalizing g with
  | nil => simp [Group'.register]
  | cons u us ih =>
    have hd : dualService u = false := by
      simp [noDual, List.all_cons] at h
      simp [h.1]
    have hrest : noDual us = true := by
      simp [noDual, List.all_cons] at h ⊢
      exact h.2
    simp only [List.cons_append, Group'.register, registerUnit_panicked, hd,
      Bool.false_eq_true, if_false, List.append_eq, ih _ hrest]

theorem registerUnit_dual_eq (g : Group') (u : Unit') (h : dualService u = true) :
    registerUnit g u =
      ({ g with
          i := if u.isInitializer then g.i ++ [some u] else g.i,
          n := if !g.configured && u.isNamer then g.n ++ [some u] else g.n,
          c := if !g.configured && u.isConfig then g.c ++ [some u] else g.c,
          p := if u.isPreRunner then g.p ++ [some u] else g.p },
       u.isInitializer || (!g.configured && u.isNamer) ||
         (!g.configured && u.isConfig) || u.isPreRunner,
       true) := by
  have h' : (u.isService && u.isServiceContext) = true := h
  simp [registerUnit, h']

theorem register_panics_of_dual (g : Group') (us : List Unit')
    (h : ∃ u ∈ us, dualService u = true) :
    (Group'.register g us).2.2 = true := by
  induction us generalizing g with
  | nil => simp at h
  | cons u rest ih =>
    by_cases hd : dualService u = true
    · simp [Group'.register, registerUnit_panicked, hd]
    · simp only [Bool.not_eq_true] at hd
      rcases h with ⟨v, hv, hdv⟩
      rcases List.mem_cons.mp hv with rfl | hv'
      · rw [hdv] at hd; cases hd
      · simp [Group'.register, registerUnit_panicked, hd]
        exact ih _ ⟨v, hv', hdv⟩

/-- The display-name resolution performed at the top of `RunConfig`:
explicit group name, else binary name, possibly overridden by `-n`. -/
def resolvedName (g : Group') (a : Args) : String :=
  let nm := if g.name == "" then binaryName else g.name
  let pn := a.nameFlag.getD nm
  if pn == "" then nm else pn

/-- The trace common to every `RunConfig` outcome: Initialize, GroupName and
FlagSet callbacks on the live units, in registration order. -/
def cfgBaseTrace (g : Group') : List Event :=
  ((liveUnits g.i).map fun u => Event.init u.uid) ++
    ((liveUnits g.n).map fun u => Event.groupName u.uid) ++
    ((liveUnits g.c).map fun u => Event.flagSet u.uid)

/-- The ordered validation errors of the live Config units. -/
def validationErrs (g : Group') : List Err :=
  (liveUnits g.c).filterMap fun u => u.validate

theorem runConfig_eq (g : Group') (a : Args) :
    g.runConfig a =
      ({ g with
          configured := true
          name := resolvedName g a
          i := g.i.map fun _ => none },
       (match a.parseError with
        | some e => some e
        | none =>
          if a.showHelp then some ErrBailEarlyRequest
          else if a.showVersion then some ErrBailEarlyRequest
          else if a.showRunGroup then some ErrBailEarlyRequest
          else
            match validationErrs g with
            | [] => none
            | _ => some (Err.agg (validationErrs g))),
       cfgBaseTrace g ++
         (match a.parseError with
          | some _ => []
          | none =>
            if a.showHelp then [Event.helpShown]
            else if a.showVersion then [Event.versionShown]
            else if a.showRunGroup then [Event.unitsListed]
            else (liveUnits g.c).map fun u => Event.validate u.uid)) := by
  unfold Group'.runConfig
  simp only [initPass_eq, validatePass_eq, resolvedName, cfgBaseTrace,
    validationErrs]
  cases a.parseError <;> dsimp only
  · split_ifs <;> simp [List.append_assoc]
  · simp [List.append_assoc]

theorem runPhases_eq_ok (g : Group') (ev0 : List Event) (arr : List (Option Err))
    (h : preRunsOk g.p = true) :
    runPhases g ev0 arr =
      (g,
       (if (liveUnits g.s).length + (liveUnits g.x).length = 0 then none
        else deferMap true (arr.headD none)),
       ev0 ++ ((liveUnits g.i).map fun u => Event.init u.uid) ++
         ((liveUnits g.p).map fun u => Event.preRun u.uid) ++
         (if (liveUnits g.s).length + (liveUnits g.x).length = 0 then []
          else
            ((liveUnits g.s).map fun u => Event.serve u.uid) ++
              ((liveUnits g.x).map fun u => Event.serveCtx u.uid) ++
              ((liveUnits g.s).map fun u => Event.gracefulStop u.uid))) := by
  unfold runPhases
  rw [preRunPass_of_ok _ h]
  dsimp only
  by_cases h0 : (liveUnits g.s).length + (liveUnits g.x).length = 0
  · simp [h0, deferMap, List.append_assoc]
  · simp [h0, List.append_assoc]

theorem preRunPass_trace (l : List (Option Unit')) :
    ∀ ev ∈ (preRunPass l).1, ∃ u ∈ liveUnits l, ev = Event.preRun u.uid := by
  induction l with
  | nil => intro ev hev; simp [preRunPass] at hev
  | cons st rest ih =>
    intro ev hev
    cases st with
    | none =>
      rw [liveUnits_cons_none]
      exact ih ev (by simpa [preRunPass] using hev)
    | some u =>
      cases hp : u.preRun with
      | some e =>
        simp [preRunPass, hp] at hev
        exact ⟨u, by simp [liveUnits_cons_some], hev⟩
      | none =>
        simp [preRunPass, hp] at hev
        rcases hev with rfl | hev
        · exact ⟨u, by simp [liveUnits_cons_some], rfl⟩
        · rcases ih ev hev with ⟨v, hv, rfl⟩
          exact ⟨v, by simp [liveUnits_cons_some, hv], rfl⟩

theorem runPhases_trace (g : Group') (ev0 : List Event) (arr : List (Option Err)) :
    ∀ ev ∈ (runPhases g ev0 arr).2.2,
      ev ∈ ev0 ∨
      (∃ u ∈ liveUnits g.i, ev = Event.init u.uid) ∨
      (∃ u ∈ liveUnits g.p, ev = Event.preRun u.uid) ∨
      (∃ u ∈ liveUnits g.s, ev = Event.serve u.uid ∨ ev = Event.gracefulStop u.uid) ∨
      (∃ u ∈ liveUnits g.x, ev = Event.serveCtx u.uid) := by
  intro ev hev
  unfold runPhases at hev
  cases hp : (preRunPass g.p).2 with
  | some e =>
    simp only [hp] at hev
    simp only [List.append_assoc, List.mem_append] at hev
    rcases hev with hev | hev | hev
    · exact Or.inl hev
    · rcases List.mem_map.mp hev with ⟨u, hu, rfl⟩
      exact Or.inr (Or.inl ⟨u, hu, rfl⟩)
    · exact Or.inr (Or.inr (Or.inl (preRunPass_trace _ ev hev)))
  | none =>
    simp only [hp] at hev
    by_cases h0 :
        ((liveUnits g.s).length + (liveUnits g.x).length == 0) = true
    · simp only [h0, if_pos] at hev
      simp only [List.append_assoc, List.mem_append] at hev
      rcases hev with hev | hev | hev
      · exact Or.inl hev
      · rcases List.mem_map.mp hev with ⟨u, hu, rfl⟩
        exact Or.inr (Or.inl ⟨u, hu, rfl⟩)
      · exact Or.inr (Or.inr (Or.inl (preRunPass_trace _ ev hev)))
    · simp only [Bool.not_eq_true] at h0
      simp only [h0, Bool.false_eq_true, if_false] at hev
      simp only [List.append_assoc, List.mem_append] at hev
      rcases hev with hev | hev | hev | hev | hev | hev
      · exact Or.inl hev
      · rcases List.mem_map.mp hev with ⟨u, hu, rfl⟩
        exact Or.inr (Or.inl ⟨u, hu, rfl⟩)
      · exact Or.inr (Or.inr (Or.inl (preRunPass_trace _ ev hev)))
      · rcases List.mem_map.mp hev with ⟨u, hu, rfl⟩
        exact Or.inr (Or.inr (Or.inr (Or.inl ⟨u, hu, Or.inl rfl⟩)))
      · rcases List.mem_map.mp hev with ⟨u, hu, rfl⟩
        exact Or.inr (Or.inr (Or.inr (Or.inr ⟨u, hu, rfl⟩)))
      · rcases List.mem_map.mp hev with ⟨u, hu, rfl⟩
        exact Or.inr (Or.inr (Or.inr (Or.inl ⟨u, hu, Or.inr rfl⟩)))

theorem runConfig_trace (g : Group') (a : Args) :
    ∀ ev ∈ (g.runConfig a).2.2,
      (∃ u ∈ liveUnits g.i, ev = Event.init u.uid) ∨
      (∃ u ∈ liveUnits g.n, ev = Event.groupName u.uid) ∨
      (∃ u ∈ liveUnits g.c, ev = Event.flagSet u.uid ∨ ev = Event.validate u.uid) ∨
      ev.uid? = none := by
  intro ev hev
  rw [runConfig_eq] at hev
  simp only [cfgBaseTrace, List.append_assoc, List.mem_append] at hev
  have base : ev ∈ (liveUnits g.i).map (fun u => Event.init u.uid) ∨
      ev ∈ (liveUnits g.n).map (fun u => Event.groupName u.uid) ∨
      ev ∈ (liveUnits g.c).map (fun u => Event.flagSet u.uid) ∨
      ev ∈ ((liveUnits g.c).map fun u => Event.validate u.uid) ∨
      ev.uid? = none := by
    rcases hev with hev | hev | hev | hev
    · exact Or.inl hev
    · exact Or.inr (Or.inl hev)
    · exact Or.inr (Or.inr (Or.inl hev))
    · cases hpe : a.parseError with
      | some e => rw [hpe] at hev; simp at hev
      | none =>
        rw [hpe] at hev
        by_cases hh : a.showHelp
        · simp [hh] at hev
          simp [hev, Event.uid?]
        · by_cases hv : a.showVersion
          · simp [hh, hv] at hev
            simp [hev, Event.uid?]
          · by_cases hr : a.showRunGroup
            · simp [hh, hv, hr] at hev
              simp [hev, Event.uid?]
            · simp [hh, hv, hr] at hev
              exact Or.inr (Or.inr (Or.inr (Or.inl (List.mem_map.mpr hev))))
  rcases base with hb | hb | hb | hb | hb
  · rcases List.mem_map.mp hb with ⟨u, hu, rfl⟩
    exact Or.inl ⟨u, hu, rfl⟩
  · rcases List.mem_map.mp hb with ⟨u, hu, rfl⟩
    exact Or.inr (Or.inl ⟨u, hu, rfl⟩)
  · rcases List.mem_map.mp hb with ⟨u, hu, rfl⟩
    exact Or.inr (Or.inr (Or.inl ⟨u, hu, Or.inl rfl⟩))
  · rcases List.mem_map.mp hb with ⟨u, hu, rfl⟩
    exact Or.inr (Or.inr (Or.inl ⟨u, hu, Or.inr rfl⟩))
  · exact Or.inr (Or.inr (Or.inr hb))

/-- No event in the trace concerns unit id `k`. -/
def uidFree (evs : List Event) (k : Nat) : Bool :=
  evs.all fun ev => ev.uid? != some k

theorem hasLiveUid_false_iff (l : List (Option Unit')) (k : Nat) :
    hasLiveUid l k = false ↔ ∀ v ∈ liveUnits l, v.uid ≠ k := by
  rw [hasLiveUid, List.any_eq_false]
  constructor
  · intro h v hv
    have hs : some v ∈ l := by
      simp only [liveUnits] at hv
      rcases List.mem_filterMap.mp hv with ⟨a, ha, hae⟩
      simp only [id_eq] at hae
      subst hae
      exact ha
    have := h (some v) hs
    simpa using this
  · intro h st hst
    cases st with
    | none => simp
    | some v =>
      have : v ∈ liveUnits l := by
        simp only [liveUnits]
        exact List.mem_filterMap.mpr ⟨some v, hst, rfl⟩
      simpa using h v this

theorem hasLiveUid_clearList (l : List (Option Unit')) (k : Nat) :
    hasLiveUid (clearList l k) k = false := by
  rw [hasLiveUid_false_iff, liveUnits_clearList]
  intro v hv
  simp only [List.mem_filter, bne_iff_ne, ne_eq, Bool.not_eq_true',
    beq_eq_false_iff_ne] at hv
  exact hv.2

theorem liveUnits_map_none (l : List (Option Unit')) :
    liveUnits (l.map fun _ => (none : Option Unit')) = [] := by
  simp [liveUnits, List.filterMap_map]

theorem run_trace (g : Group') (a : Args) (arr : List (Option Err)) :
    ∀ ev ∈ (g.run a arr).2.2, ∀ kk, ev.uid? = some kk →
      (∃ u ∈ liveUnits g.i, u.uid = kk) ∨ (∃ u ∈ liveUnits g.n, u.uid = kk) ∨
      (∃ u ∈ liveUnits g.c, u.uid = kk) ∨ (∃ u ∈ liveUnits g.p, u.uid = kk) ∨
      (∃ u ∈ liveUnits g.s, u.uid = kk) ∨ (∃ u ∈ liveUnits g.x, u.uid = kk) := by
  intro ev hev kk hk
  by_cases hc : g.configured = true
  · simp only [Group'.run, hc, if_pos] at hev
    rcases runPhases_trace g [] arr ev hev with h | h | h | h | h
    · simp at h
    · rcases h with ⟨u, hu, rfl⟩
      simp only [Event.uid?, Option.some.injEq] at hk
      exact Or.inl ⟨u, hu, hk⟩
    · rcases h with ⟨u, hu, rfl⟩
      simp only [Event.uid?, Option.some.injEq] at hk
      exact Or.inr (Or.inr (Or.inr (Or.inl ⟨u, hu, hk⟩)))
    · rcases h with ⟨u, hu, h | h⟩ <;> subst h <;>
        simp only [Event.uid?, Option.some.injEq] at hk <;>
        exact Or.inr (Or.inr (Or.inr (Or.inr (Or.inl ⟨u, hu, hk⟩))))
    · rcases h with ⟨u, hu, rfl⟩
      simp only [Event.uid?, Option.some.injEq] at hk
      exact Or.inr (Or.inr (Or.inr (Or.inr (Or.inr ⟨u, hu, hk⟩))))
  · simp only [Bool.not_eq_true] at hc
    have hcfgFromConfig :
        ∀ e2 ∈ (g.runConfig a).2.2, ∀ k2, e2.uid? = some k2 →
          (∃ u ∈ liveUnits g.i, u.uid = k2) ∨ (∃ u ∈ liveUnits g.n, u.uid = k2) ∨
          (∃ u ∈ liveUnits g.c, u.uid = k2) := by
      intro e2 he2 k2 hk2
      rcases runConfig_trace g a e2 he2 with h | h | h | h
      · rcases h with ⟨u, hu, rfl⟩
        simp only [Event.uid?, Option.some.injEq] at hk2
        exact Or.inl ⟨u, hu, hk2⟩
      · rcases h with ⟨u, hu, rfl⟩
        simp only [Event.uid?, Option.some.injEq] at hk2
        exact Or.inr (Or.inl ⟨u, hu, hk2⟩)
      · rcases h with ⟨u, hu, h | h⟩ <;> subst h <;>
          simp only [Event.uid?, Option.some.injEq] at hk2 <;>
          exact Or.inr (Or.inr ⟨u, hu, hk2⟩)
      · rw [h] at hk2; cases hk2
    simp only [Group'.run, hc, Bool.false_eq_true, if_false] at hev
    cases hce : (g.runConfig a).2.1 with
    | some e =>
      simp only [hce] at hev
      rcases hcfgFromConfig ev hev kk hk with h | h | h
      · exact Or.inl h
      · exact Or.inr (Or.inl h)
      · exact Or.inr (Or.inr (Or.inl h))
    | none =>
      simp only [hce] at hev
      rcases runPhases_trace (g.runConfig a).1 (g.runConfig a).2.2 arr ev hev with
        h | h | h | h | h
      · rcases hcfgFromConfig ev h kk hk with h2 | h2 | h2
        · exact Or.inl h2
        · exact Or.inr (Or.inl h2)
        · exact Or.inr (Or.inr (Or.inl h2))
      · rcases h with ⟨u, hu, rfl⟩
        rw [runConfig_eq] at hu
        simp only [liveUnits_map_none] at hu
        cases hu
      · rcases h with ⟨u, hu, rfl⟩
        rw [runConfig_eq] at hu
        simp only [Event.uid?, Option.some.injEq] at hk
        exact Or.inr (Or.inr (Or.inr (Or.inl ⟨u, hu, hk⟩)))
      · rcases h with ⟨u, hu, h | h⟩ <;> subst h <;>
          rw [runConfig_eq] at hu <;>
          simp only [Event.uid?, Option.some.injEq] at hk <;>
          exact Or.inr (Or.inr (Or.inr (Or.inr (Or.inl ⟨u, hu, hk⟩))))
      · rcases h with ⟨u, hu, rfl⟩
        rw [runConfig_eq] at hu
        simp only [Event.uid?, Option.some.injEq] at hk
        exact Or.inr (Or.inr (Or.inr (Or.inr (Or.inr ⟨u, hu, hk⟩))))

theorem run_uidFree (g : Group') (a : Args) (arr : List (Option Err)) (k : Nat)
    (hi : hasLiveUid g.i k = false) (hn : hasLiveUid g.n k = false)
    (hc : hasLiveUid g.c k = false) (hp : hasLiveUid g.p k = false)
    (hs : hasLiveUid g.s k = false) (hx : hasLiveUid g.x k = false) :
    uidFree (g.run a arr).2.2 k = true := by
  rw [uidFree, List.all_eq_true]
  intro ev hev
  rw [bne_iff_ne, ne_eq]
  intro hk
  rcases run_trace g a arr ev hev k hk with h | h | h | h | h | h
  · rcases h with ⟨u, hu, he⟩
    exact (hasLiveUid_false_iff _ _).mp hi u hu he
  · rcases h with ⟨u, hu, he⟩
    exact (hasLiveUid_false_iff _ _).mp hn u hu he
  · rcases h with ⟨u, hu, he⟩
    exact (hasLiveUid_false_iff _ _).mp hc u hu he
  · rcases h with ⟨u, hu, he⟩
    exact (hasLiveUid_false_iff _ _).mp hp u hu he
  · rcases h with ⟨u, hu, he⟩
    exact (hasLiveUid_false_iff _ _).mp hs u hu he
  · rcases h with ⟨u, hu, he⟩
    exact (hasLiveUid_false_iff _ _).mp hx u hu he

/-! ### Claim theorems -/

/-- C3: a unit satisfying both the Service and the ServiceContext interfaces
makes Register abort via the ambiguous-service panic (never returning
normally), and processing that unit appends it to neither the Service nor
the ServiceContext list. -/
theorem register_dual_service_panics (g : Group') (us : List Unit') (u : Unit')
    (hmem : u ∈ us) (hsvc : u.isService = true) (hctx : u.isServiceContext = true) :
    (Group'.register g us).2.2 = true ∧
    (registerUnit g u).2.2 = true ∧
    ((registerUnit g u).1).s = g.s ∧ ((registerUnit g u).1).x = g.x := by
  have hd : dualService u = true := by simp [dualService, hsvc, hctx]
  refine ⟨register_panics_of_dual g us ⟨u, hmem, hd⟩, ?_, ?_, ?_⟩
  · rw [registerUnit_panicked, hd]
  · rw [registerUnit_dual_eq g u hd]
  · rw [registerUnit_dual_eq g u hd]

/-- A unit implementing both Service and ServiceContext (used as input by
several checks). -/
def svcDual : Unit' :=
  { uid := 3, name := "dual", isInitializer := true, isPreRunner := true,
    isService := true, isServiceContext := true }

theorem register_dual_service_panics_witness :
    svcDual ∈ [svcDual] ∧ svcDual.isService = true ∧
      svcDual.isServiceContext = true ∧
      ((Group'.register {} [svcDual]).2.2 = true ∧
       (registerUnit {} svcDual).2.2 = true ∧
       ((registerUnit {} svcDual).1).s = Group'.s {} ∧
       ((registerUnit {} svcDual).1).x = Group'.x {}) :=
  ⟨List.mem_singleton.mpr rfl, rfl, rfl,
   register_dual_service_panics {} [svcDual] svcDual
     (List.mem_singleton.mpr rfl) rfl rfl⟩

/-- C10: when Register hits the ambiguous-service panic at a unit, the units
earlier in the argument list are fully registered (the group state equals
the one produced by registering the prefix), and the offending unit itself
is appended to exactly the Initializer / Namer / Config / PreRunner lists
it matched (the latter two only if the latch is unset), while the Service
and ServiceContext lists are left untouched. -/
theorem register_panic_partial_state (g : Group') (pre post : List Unit')
    (u : Unit') (hpre : noDual pre = true)
    (hsvc : u.isService = true) (hctx : u.isServiceContext = true) :
    Group'.register g (pre ++ u :: post) =
      ({ (Group'.register g pre).1 with
          i := if u.isInitializer
            then (Group'.register g pre).1.i ++ [some u]
            else (Group'.register g pre).1.i
          n := if !g.configured && u.isNamer
            then (Group'.register g pre).1.n ++ [some u]
            else (Group'.register g pre).1.n
          c := if !g.configured && u.isConfig
            then (Group'.register g pre).1.c ++ [some u]
            else (Group'.register g pre).1.c
          p := if u.isPreRunner
            then (Group'.register g pre).1.p ++ [some u]
            else (Group'.register g pre).1.p },
       (Group'.register g pre).2.1 ++
         [u.isInitializer || (!g.configured && u.isNamer) ||
           (!g.configured && u.isConfig) || u.isPreRunner],
       true) := by
  have hd : dualService u = true := by simp [dualService, hsvc, hctx]
  rw [register_append g pre (u :: post) hpre]
  simp only [Group'.register, registerUnit_panicked, hd, if_pos]
  rw [registerUnit_dual_eq _ _ hd]
  simp [register_configured]

/-- A plain PreRunner unit used as registration prefix in checks. -/
def preU : Unit' := { uid := 1, name := "pre", isPreRunner := true }

/-- A plain PreRunner unit used as registration suffix in checks. -/
def postU : Unit' := { uid := 2, name := "post", isPreRunner := true }

theorem register_panic_partial_state_witness :
    noDual [preU] = true ∧ svcDual.isService = true ∧
      svcDual.isServiceContext = true ∧
      (Group'.register {} ([preU] ++ svcDual :: [postU])).2.2 = true :=
  ⟨rfl, rfl, rfl, by
    rw [register_panic_partial_state {} [preU] [postU] svcDual rfl rfl rfl]⟩

/-- A Namer+Config unit registered after the Config phase has run. -/
def lateUnit : Unit' := { uid := 6, name := "late", isNamer := true, isConfig := true }

/-- A group whose `configured` latch is already set. -/
def cfgGroup : Group' := { configured := true }

/-- C6 counterexample: registering a Namer+Config-only unit after the Config
phase has executed reports it as NOT registered (flag `false`) and appends
it to neither the Namer nor the Config list — contradicting the claim that
it is "accepted into the corresponding phase list" and still reported as
registered. -/
theorem register_after_config_counterexample :
    (Group'.register cfgGroup [lateUnit]).2.1 = [false] ∧
    ((Group'.register cfgGroup [lateUnit]).1).n = [] ∧
    ((Group'.register cfgGroup [lateUnit]).1).c = [] :=
  ⟨rfl, rfl, rfl⟩

/-- C6 amended: once the `configured` latch is set, Register skips the Namer
and Config capability checks entirely: the unit is appended to neither list
(so GroupName / FlagSet / Validate are trivially never invoked for it) and
those two capabilities do not count toward its has-registered flag, which
becomes true only for an Initializer / PreRunner / Service / ServiceContext
match. -/
theorem register_after_config_ignores_namer_config (g : Group') (u : Unit')
    (hcfg : g.configured = true) (hnd : dualService u = false) :
    ((Group'.register g [u]).1).n = g.n ∧
    ((Group'.register g [u]).1).c = g.c ∧
    (Group'.register g [u]).2.1 =
      [u.isInitializer || u.isPreRunner || u.isService || u.isServiceContext] ∧
    (Group'.register g [u]).2.2 = false := by
  have h' : (u.isService && u.isServiceContext) = false := hnd
  simp only [Group'.register, registerUnit_panicked, hnd, Bool.false_eq_true,
    if_false]
  simp [registerUnit, hcfg, h', Bool.or_assoc]

theorem register_after_config_ignores_witness :
    cfgGroup.configured = true ∧ dualService lateUnit = false ∧
      (((Group'.register cfgGroup [lateUnit]).1).n = cfgGroup.n ∧
       ((Group'.register cfgGroup [lateUnit]).1).c = cfgGroup.c ∧
       (Group'.register cfgGroup [lateUnit]).2.1 =
         [lateUnit.isInitializer || lateUnit.isPreRunner ||
           lateUnit.isService || lateUnit.isServiceContext] ∧
       (Group'.register cfgGroup [lateUnit]).2.2 = false) :=
  ⟨rfl, rfl, register_after_config_ignores_namer_config cfgGroup lateUnit rfl rfl⟩

/-- C8: Deregister clears (tombstones) every slot whose occupant is
identity-equal to the input unit without changing any list length, reports
`true` exactly when at least one slot matched, leaves no live slot with the
unit's identity in any list, and a subsequent Run (config phase included)
invokes no callback of that unit. -/
theorem deregister_clears_and_skips (g : Group') (u : Unit') :
    ((Group'.deregister g [u]).1).i.length = g.i.length ∧
    ((Group'.deregister g [u]).1).n.length = g.n.length ∧
    ((Group'.deregister g [u]).1).c.length = g.c.length ∧
    ((Group'.deregister g [u]).1).p.length = g.p.length ∧
    ((Group'.deregister g [u]).1).s.length = g.s.length ∧
    ((Group'.deregister g [u]).1).x.length = g.x.length ∧
    (Group'.deregister g [u]).2 =
      [hasLiveUid g.i u.uid || hasLiveUid g.n u.uid || hasLiveUid g.c u.uid ||
        hasLiveUid g.p u.uid || hasLiveUid g.s u.uid || hasLiveUid g.x u.uid] ∧
    hasLiveUid ((Group'.deregister g [u]).1).i u.uid = false ∧
    hasLiveUid ((Group'.deregister g [u]).1).n u.uid = false ∧
    hasLiveUid ((Group'.deregister g [u]).1).c u.uid = false ∧
    hasLiveUid ((Group'.deregister g [u]).1).p u.uid = false ∧
    hasLiveUid ((Group'.deregister g [u]).1).s u.uid = false ∧
    hasLiveUid ((Group'.deregister g [u]).1).x u.uid = false ∧
    ∀ a arr, uidFree (((Group'.deregister g [u]).1).run a arr).2.2 u.uid = true :=
  ⟨clearList_length _ _, clearList_length _ _, clearList_length _ _,
   clearList_length _ _, clearList_length _ _, clearList_length _ _,
   rfl,
   hasLiveUid_clearList _ _, hasLiveUid_clearList _ _, hasLiveUid_clearList _ _,
   hasLiveUid_clearList _ _, hasLiveUid_clearList _ _, hasLiveUid_clearList _ _,
   fun a arr => run_uidFree _ a arr u.uid
     (hasLiveUid_clearList _ _) (hasLiveUid_clearList _ _)
     (hasLiveUid_clearList _ _) (hasLiveUid_clearList _ _)
     (hasLiveUid_clearList _ _) (hasLiveUid_clearList _ _)⟩

/-- Recognizes Validate-callback events. -/
def isValidateEv : Event → Bool
  | .validate _ => true
  | _ => false

/-- C2: with no parse error and no help/version/list request, RunConfig
invokes Validate on every still-registered Config unit in registration
order (even after failures), and returns the ordered aggregate of all
returned validation errors (or nil when none failed). -/
theorem runConfig_validates_all_and_aggregates (g : Group') (a : Args)
    (hp : a.parseError = none) (hh : a.showHelp = false)
    (hv : a.showVersion = false) (hr : a.showRunGroup = false) :
    ((g.runConfig a).2.2.filter isValidateEv) =
      ((liveUnits g.c).map fun u => Event.validate u.uid) ∧
    (g.runConfig a).2.1 =
      (match validationErrs g with
       | [] => none
       | _ => some (Err.agg (validationErrs g))) := by
  rw [runConfig_eq]
  constructor
  · simp only [hp, hh, hv, hr, Bool.false_eq_true, if_false, cfgBaseTrace,
      List.append_assoc, List.filter_append]
    rw [List.filter_map, List.filter_map, List.filter_map, List.filter_map]
    simp [isValidateEv, Function.comp_def, List.filter_eq_self]
  · simp [hp, hh, hv, hr]

/-- A Config unit whose Validate fails with the given message. -/
def cfgU (k : Nat) (msg : String) : Unit' :=
  { uid := k, name := "cfg", isConfig := true, validate := some (.mk msg) }

/-- A group with three Config units failing validation with E1, E2, E3. -/
def g3cfg : Group' :=
  { c := [some (cfgU 1 "E1"), some (cfgU 2 "E2"), some (cfgU 3 "E3")] }

theorem runConfig_validates_all_witness :
    (g3cfg.runConfig {}).2.1 =
      some (Err.agg [Err.mk "E1", Err.mk "E2", Err.mk "E3"]) ∧
    ((g3cfg.runConfig {}).2.2.filter isValidateEv) =
      [Event.validate 1, Event.validate 2, Event.validate 3] := by
  have h := runConfig_validates_all_and_aggregates g3cfg {} rfl rfl rfl rfl
  exact ⟨h.2.trans rfl, h.1.trans rfl⟩

/-- Recognizes PreRun / Serve / ServeContext / GracefulStop callback events. -/
def isExecEv : Event → Bool
  | .preRun _ => true
  | .serve _ => true
  | .serveCtx _ => true
  | .gracefulStop _ => true
  | _ => false

theorem cfgBaseTrace_noExec (g : Group') :
    (cfgBaseTrace g).all (fun ev => !isExecEv ev) = true := by
  rw [List.all_eq_true]
  intro ev hev
  simp only [cfgBaseTrace, List.append_assoc, List.mem_append] at hev
  rcases hev with hev | hev | hev <;>
    rcases List.mem_map.mp hev with ⟨u, _, rfl⟩ <;> rfl

/-- C5: after flag parsing, help, version and list-units are evaluated in
that priority order and at most one fires (witnessed by the single action
event in the trace); each returns `ErrBailEarlyRequest`, which `Run` maps
to a nil result without invoking any PreRun / Serve / ServeContext
callback; a flag-parse error is returned as-is (a non-nil error). -/
theorem bail_priority_and_parse_error (g : Group') (a : Args)
    (hcfg : g.configured = false) :
    (a.parseError = none → a.showHelp = true →
      (g.runConfig a).2.1 = some ErrBailEarlyRequest ∧
      Event.helpShown ∈ (g.runConfig a).2.2 ∧
      Event.versionShown ∉ (g.runConfig a).2.2 ∧
      Event.unitsListed ∉ (g.runConfig a).2.2) ∧
    (a.parseError = none → a.showHelp = false → a.showVersion = true →
      (g.runConfig a).2.1 = some ErrBailEarlyRequest ∧
      Event.versionShown ∈ (g.runConfig a).2.2 ∧
      Event.helpShown ∉ (g.runConfig a).2.2 ∧
      Event.unitsListed ∉ (g.runConfig a).2.2) ∧
    (a.parseError = none → a.showHelp = false → a.showVersion = false →
      a.showRunGroup = true →
      (g.runConfig a).2.1 = some ErrBailEarlyRequest ∧
      Event.unitsListed ∈ (g.runConfig a).2.2 ∧
      Event.helpShown ∉ (g.runConfig a).2.2 ∧
      Event.versionShown ∉ (g.runConfig a).2.2) ∧
    (a.parseError = none →
      (a.showHelp = true ∨ a.showVersion = true ∨ a.showRunGroup = true) →
      ∀ arr, (g.run a arr).2.1 = none ∧
        (g.run a arr).2.2.all (fun ev => !isExecEv ev) = true) ∧
    (∀ e, a.parseError = some e → (g.runConfig a).2.1 = some e) := by
  refine ⟨?_, ?_, ?_, ?_, ?_⟩
  · intro hp hh
    rw [runConfig_eq]
    simp [hp, hh, cfgBaseTrace, List.mem_append]
  · intro hp hh hv
    rw [runConfig_eq]
    simp [hp, hh, hv, cfgBaseTrace, List.mem_append]
  · intro hp hh hv hr
    rw [runConfig_eq]
    simp [hp, hh, hv, hr, cfgBaseTrace, List.mem_append]
  · intro hp hflags arr
    have hout : (g.runConfig a).2.1 = some ErrBailEarlyRequest := by
      rw [runConfig_eq]
      rcases hflags with hh | hv | hr
      · simp [hp, hh]
      · by_cases hh : a.showHelp = true
        · simp [hp, hh]
        · simp only [Bool.not_eq_true] at hh
          simp [hp, hh, hv]
      · by_cases hh : a.showHelp = true
        · simp [hp, hh]
        · simp only [Bool.not_eq_true] at hh
          by_cases hv : a.showVersion = true
          · simp [hp, hh, hv]
          · simp only [Bool.not_eq_true] at hv
            simp [hp, hh, hv, hr]
    have htr :
        ∃ act, (g.runConfig a).2.2 = cfgBaseTrace g ++ [act] ∧ isExecEv act = false := by
      rw [runConfig_eq]
      simp only [hp]
      by_cases hh : a.showHelp = true
      · exact ⟨Event.helpShown, by simp [hh], rfl⟩
      · simp only [Bool.not_eq_true] at hh
        by_cases hv : a.showVersion = true
        · exact ⟨Event.versionShown, by simp [hh, hv], rfl⟩
        · simp only [Bool.not_eq_true] at hv
          rcases hflags with h | h | h
          · rw [h] at hh; cases hh
          · rw [h] at hv; cases hv
          · exact ⟨Event.unitsListed, by simp [hh, hv, h], rfl⟩
    have hbeq : errBeq ErrBailEarlyRequest ErrBailEarlyRequest = true := by
      simp [errBeq, ErrBailEarlyRequest]
    constructor
    · simp only [Group'.run, hcfg, Bool.false_eq_true, if_false, hout, hbeq,
        if_pos]
    · rcases htr with ⟨act, hact, hexec⟩
      simp only [Group'.run, hcfg, Bool.false_eq_true, if_false, hout, hact]
      rw [List.all_append]
      rw [Bool.and_eq_true]
      refine ⟨cfgBaseTrace_noExec g, ?_⟩
      simp [hexec]
  · intro e hp
    rw [runConfig_eq]
    simp [hp]

/-- Arguments with help, version and list-units all requested at once. -/
def allFlagsArgs : Args :=
  { showHelp := true, showVersion := true, showRunGroup := true }

/-- Arguments whose combined flag parse fails (e.g. an unknown flag). -/
def badArgs : Args := { parseError := some (.mk "unknown flag: --bogus") }

theorem bail_priority_witness :
    ((({} : Group').configured = false ∧ allFlagsArgs.parseError = none ∧
       allFlagsArgs.showHelp = true) ∧
     ((Group'.runConfig {} allFlagsArgs).2.1 = some ErrBailEarlyRequest ∧
      Event.helpShown ∈ (Group'.runConfig {} allFlagsArgs).2.2 ∧
      Event.versionShown ∉ (Group'.runConfig {} allFlagsArgs).2.2 ∧
      Event.unitsListed ∉ (Group'.runConfig {} allFlagsArgs).2.2)) ∧
    ((Group'.run {} allFlagsArgs []).2.1 = none ∧
     (Group'.run {} allFlagsArgs []).2.2.all (fun ev => !isExecEv ev) = true) ∧
    (Group'.runConfig {} badArgs).2.1 = some (.mk "unknown flag: --bogus") := by
  have h1 := bail_priority_and_parse_error {} allFlagsArgs rfl
  have h2 := bail_priority_and_parse_error {} badArgs rfl
  exact ⟨⟨⟨rfl, rfl, rfl⟩, h1.1 rfl rfl⟩,
    h1.2.2.2.1 rfl (Or.inl rfl) [], h2.2.2.2.2 _ rfl⟩

/-- Recognizes Config-phase-only events: GroupName, FlagSet, Validate and
the help / version / list-units actions. -/
def isCfgPhaseEv : Event → Bool
  | .groupName _ => true
  | .flagSet _ => true
  | .validate _ => true
  | .helpShown => true
  | .versionShown => true
  | .unitsListed => true
  | _ => false

/-- C9: RunConfig sets the `configured` latch unconditionally at entry (for
every argument vector, including those that make it fail), and Run on a
configured group is independent of the argument vector and performs no
Config-phase work (no GroupName / FlagSet / Validate / bail action),
proceeding directly to the Initializer / PreRun / Serve phases. -/
theorem configured_latch_one_way (g : Group') (a : Args) :
    ((g.runConfig a).1).configured = true ∧
    (∀ g2 : Group', g2.configured = true → ∀ a2 a3 arr,
      g2.run a2 arr = g2.run a3 arr ∧
      (g2.run a2 arr).2.2.all (fun ev => !isCfgPhaseEv ev) = true) := by
  constructor
  · rw [runConfig_eq]
  · intro g2 h2 a2 a3 arr
    constructor
    · simp [Group'.run, h2]
    · rw [List.all_eq_true]
      intro ev hev
      simp only [Group'.run, h2, if_pos] at hev
      rcases runPhases_trace g2 [] arr ev hev with h | h | h | h | h
      · simp at h
      · rcases h with ⟨u, _, rfl⟩; rfl
      · rcases h with ⟨u, _, rfl⟩; rfl
      · rcases h with ⟨u, _, h | h⟩ <;> subst h <;> rfl
      · rcases h with ⟨u, _, rfl⟩; rfl

theorem configured_latch_one_way_witness :
    ((Group'.runConfig {} badArgs).1).configured = true ∧
    cfgGroup.configured = true ∧
    Group'.run cfgGroup badArgs [] = Group'.run cfgGroup allFlagsArgs [] ∧
    (Group'.run cfgGroup badArgs []).2.2.all (fun ev => !isCfgPhaseEv ev) = true := by
  have h := configured_latch_one_way {} badArgs
  have h2 := h.2 cfgGroup rfl badArgs allFlagsArgs []
  exact ⟨h.1, rfl, h2.1, h2.2⟩

/-- Recognizes Initialize-callback events. -/
def isInitEv : Event → Bool
  | .init _ => true
  | _ => false

/-- A late-registered Initializer+PreRunner unit. -/
def lateInit : Unit' :=
  { uid := 7, name := "late-init", isInitializer := true, isPreRunner := true }

/-- The group obtained by running the Config phase on an empty group and
then registering `lateInit` (so its Initialize never ran under RunConfig). -/
def g7 : Group' := ((Group'.runConfig {} {}).1.register [lateInit]).1

/-- C7 counterexample: a unit registered after RunConfig keeps its
Initializer slot (Run's initializer pass does not clear it), so its
Initialize callback runs in the first Run AND again in a later full Run —
refuting "every Initializer slot is cleared immediately after its
invocation" and "a later full Run never re-invokes a unit whose Initialize
already ran". -/
theorem run_initializer_reinvoked_counterexample :
    Event.init 7 ∈ (g7.run {} []).2.2 ∧
    ((g7.run {} []).1).i = [some lateInit] ∧
    Event.init 7 ∈ (((g7.run {} []).1).run {} []).2.2 := by
  refine ⟨?_, rfl, ?_⟩ <;> decide

/-- C7 amended: only RunConfig's initializer pass clears slots: after
RunConfig every Initializer slot is nil, RunConfig's trace holds exactly
one Initialize event per live unit in registration order, and a subsequent
Run of the resulting group performs no Initialize call at all.  (Run's own
initializer pass, used for units registered after the Config phase, does
not clear slots, so such units are re-initialized by every later Run.) -/
theorem initializer_cleared_only_by_runConfig (g : Group') (a : Args) :
    ((g.runConfig a).1).i = g.i.map (fun _ => none) ∧
    ((g.runConfig a).2.2.filter isInitEv) =
      ((liveUnits g.i).map fun u => Event.init u.uid) ∧
    (∀ a2 arr,
      ((g.runConfig a).1.run a2 arr).2.2.all (fun ev => !isInitEv ev) = true) := by
  refine ⟨by rw [runConfig_eq], ?_, ?_⟩
  · rw [runConfig_eq]
    simp only [cfgBaseTrace, List.append_assoc, List.filter_append]
    rw [List.filter_map, List.filter_map, List.filter_map]
    simp only [Function.comp_def, isInitEv, List.filter_eq_self]
    have htail :
        (List.filter isInitEv
          (match a.parseError with
           | some _ => []
           | none =>
             if a.showHelp then [Event.helpShown]
             else if a.showVersion then [Event.versionShown]
             else if a.showRunGroup then [Event.unitsListed]
             else (liveUnits g.c).map fun u => Event.validate u.uid)) = [] := by
      cases a.parseError with
      | some e => rfl
      | none =>
        by_cases hh : a.showHelp = true
        · simp [hh, isInitEv]
        · simp only [Bool.not_eq_true] at hh
          by_cases hv : a.showVersion = true
          · simp [hh, hv, isInitEv]
          · simp only [Bool.not_eq_true] at hv
            by_cases hr : a.showRunGroup = true
            · simp [hh, hv, hr, isInitEv]
            · simp only [Bool.not_eq_true] at hr
              simp only [hh, hv, hr, Bool.false_eq_true, if_false]
              rw [List.filter_map]
              simp [Function.comp_def, isInitEv]
    rw [htail]
    simp [List.filter_eq_nil_iff, isInitEv]
  · intro a2 arr
    rw [List.all_eq_true]
    intro ev hev
    have hcfgd : ((g.runConfig a).1).configured = true := by rw [runConfig_eq]
    simp only [Group'.run, hcfgd, if_pos] at hev
    rcases runPhases_trace (g.runConfig a).1 [] arr ev hev with h | h | h | h | h
    · simp at h
    · rcases h with ⟨u, hu, rfl⟩
      rw [runConfig_eq] at hu
      simp only [liveUnits_map_none] at hu
      cases hu
    · rcases h with ⟨u, _, rfl⟩; rfl
    · rcases h with ⟨u, _, h | h⟩ <;> subst h <;> rfl
    · rcases h with ⟨u, _, rfl⟩; rfl

/-- C1: with the config stage done and all pre-runs succeeding, when at
least one service task is launched, the value received first from the
result channel (the head of the arrival schedule) — here a genuine error,
neither nil nor a shutdown request — is exactly what Run returns after
draining the remaining arrivals; it is never an aggregate of the other
tasks' errors. -/
theorem run_returns_first_arrival (g : Group') (a : Args)
    (arr : List (Option Err)) (e : Err)
    (hcfg : g.configured = true) (hpre : preRunsOk g.p = true)
    (hlen : arr.length = (liveUnits g.s).length + (liveUnits g.x).length)
    (hfirst : arr.head? = some (some e))
    (hnshut : errIs e ErrRequestedShutdown = false) :
    (g.run a arr).2.1 = some e := by
  have hlive : ¬((liveUnits g.s).length + (liveUnits g.x).length = 0) := by
    intro h0
    rw [h0, List.length_eq_zero] at hlen
    rw [hlen] at hfirst
    simp at hfirst
  have hheadD : arr.headD none = some e := by
    cases arr with
    | nil => simp at hfirst
    | cons hd tl =>
      simp only [List.head?_cons, Option.some.injEq] at hfirst
      simp [hfirst]
  simp only [Group'.run, hcfg, if_pos]
  rw [runPhases_eq_ok _ _ _ hpre]
  simp only [hlive, if_false, hheadD]
  simp [deferMap, hnshut]

/-- A plain blocking Service unit. -/
def svcUnit : Unit' := { uid := 11, name := "svc", isService := true }

/-- A context-driven service unit. -/
def ctxUnit : Unit' := { uid := 12, name := "ctx", isServiceContext := true }

/-- A configured group with one Service and one ServiceContext unit. -/
def gServe : Group' := { s := [some svcUnit], x := [some ctxUnit], configured := true }

theorem run_returns_first_arrival_witness :
    gServe.configured = true ∧ preRunsOk gServe.p = true ∧
    [some (Err.mk "boom"), none].length =
      (liveUnits gServe.s).length + (liveUnits gServe.x).length ∧
    [some (Err.mk "boom"), none].head? = some (some (Err.mk "boom")) ∧
    errIs (Err.mk "boom") ErrRequestedShutdown = false ∧
    (gServe.run {} [some (Err.mk "boom"), none]).2.1 = some (Err.mk "boom") :=
  ⟨rfl, rfl, rfl, rfl, by decide,
   run_returns_first_arrival gServe {} [some (Err.mk "boom"), none]
     (Err.mk "boom") rfl rfl rfl rfl (by decide)⟩

/-- C4: Run's final outcome mapping (config stage done, pre-runs clean):
with launched services and a nil originating error, Run returns the fatal
"run terminated without explicit error condition"; an originating error
that is or wraps ErrRequestedShutdown is cleared to nil; with no services
launched and no phase error, Run returns nil. -/
theorem run_outcome_mapping (g : Group') (a : Args) (arr : List (Option Err))
    (hcfg : g.configured = true) (hpre : preRunsOk g.p = true) :
    (¬((liveUnits g.s).length + (liveUnits g.x).length = 0) →
      arr.headD none = none →
      (g.run a arr).2.1 =
        some (Err.mk "run terminated without explicit error condition")) ∧
    (∀ e, ¬((liveUnits g.s).length + (liveUnits g.x).length = 0) →
      arr.headD none = some e → errIs e ErrRequestedShutdown = true →
      (g.run a arr).2.1 = none) ∧
    ((liveUnits g.s).length + (liveUnits g.x).length = 0 →
      (g.run a arr).2.1 = none) := by
  simp only [Group'.run, hcfg, if_pos]
  rw [runPhases_eq_ok _ _ _ hpre]
  refine ⟨?_, ?_, ?_⟩
  · intro hlive hhead
    simp only [hlive, if_false, hhead]
    rfl
  · intro e hlive hhead hshut
    simp only [hlive, if_false, hhead]
    simp [deferMap, hshut]
  · intro hzero
    simp only [hzero, if_pos]

theorem run_outcome_mapping_witness :
    gServe.configured = true ∧ preRunsOk gServe.p = true ∧
    cfgGroup.configured = true ∧ preRunsOk cfgGroup.p = true ∧
    (gServe.run {} [none, none]).2.1 =
      some (Err.mk "run terminated without explicit error condition") ∧
    (gServe.run {} [some (Err.wrapped "sig" ErrRequestedShutdown), none]).2.1 =
      none ∧
    (cfgGroup.run {} []).2.1 = none :=
  ⟨rfl, rfl, rfl, rfl,
   (run_outcome_mapping gServe {} [none, none] rfl rfl).1 (by decide) rfl,
   (run_outcome_mapping gServe {}
       [some (Err.wrapped "sig" ErrRequestedShutdown), none] rfl rfl).2.1
     (Err.wrapped "sig" ErrRequestedShutdown) (by decide) rfl (by decide),
   (run_outcome_mapping cfgGroup {} [] rfl rfl).2.2 rfl⟩
